import Mathlib

/-!
Shallow embedding of the Stellar batch contract's CoinJoin mixer
(src/stellar/batch/src/coinjoin.rs and src/stellar/batch/src/lib.rs).

Machine integers: the contract computes in `i128` (amounts, reserves) and
`u32`/`u64` (sizes, timestamps).  The embedding uses `Int`/`Nat`; `i128`
division is truncating, modelled by `Int.tdiv`, and the one `as u32` cast is
modelled by an explicit `% 2^32`.  All values reached by the theorems below
stay far inside the `i128` range, so plain `Int` arithmetic coincides with the
contract's; a separate wrapping model (`wrap128`, `calculateEqualPayoutI128`)
captures the overflow behaviour where it matters.

Storage (`env.storage().instance()`) is modelled by an explicit
`ContractState`; external contracts (token clients, the Soroswap factory and
pair) are modelled by a `PairExt` record of their observable answers plus an
`ExtCall` trace of the outbound invocations a settlement performs.
-/

namespace Dex

/-- Error enumeration from src/stellar/batch/src/error.rs. -/
inductive BatcherError where
  | InvalidInput
  | InsufficientBalance
  | Unauthorized
  | ContractPaused
  | InternalError
  | AlreadyInitialized
  | NotInitialized
  | FactoryNotConnected
  | PairNotFound
  | FactoryError
  | InvalidPairAddress
deriving DecidableEq, Repr

/-- Equality on `Except` results is decidable, so concrete runs can be
checked by evaluation. -/
instance {e a : Type} [DecidableEq e] [DecidableEq a] : DecidableEq (Except e a) :=
  fun x y =>
    match x, y with
    | .error e1, .error e2 => decidable_of_iff (e1 = e2) (by simp)
    | .ok v1, .ok v2 => decidable_of_iff (v1 = v2) (by simp)
    | .error _, .ok _ => isFalse (fun hc => Except.noConfusion hc)
    | .ok _, .error _ => isFalse (fun hc => Except.noConfusion hc)

/-- Opaque 32-byte tags (`BytesN<32>`) are byte lists. -/
abbrev Bytes32 := List Nat

/-- Soroban addresses are opaque identifiers. -/
abbrev Address := Nat

/-- The address of the batch contract itself (`env.current_contract_address()`). -/
def batchContractAddress : Address := 0

/-- Fixed denomination enumeration (coinjoin.rs, `Denomination`). -/
inductive Denomination where
  | Small
  | Medium
  | Large
  | ExtraLarge
deriving DecidableEq, Repr, Fintype

/-- `Denomination::value` (coinjoin.rs lines 29-36). -/
def Denomination.value : Denomination → Int
  | .Small => 10000000
  | .Medium => 100000000
  | .Large => 1000000000
  | .ExtraLarge => 10000000000

/-- `Denomination::from_amount` (coinjoin.rs lines 47-55): note the match arm
for `ExtraLarge` is `10_000_000_000`, not the enum discriminant
`2_000_000_000`. -/
def Denomination.fromAmount (amount : Int) : Option Denomination :=
  if amount = 10000000 then some .Small
  else if amount = 100000000 then some .Medium
  else if amount = 1000000000 then some .Large
  else if amount = 10000000000 then some .ExtraLarge
  else none

/-- `Denomination::symbol` (coinjoin.rs lines 38-45). -/
def Denomination.symbol : Denomination → String
  | .Small => "10"
  | .Medium => "100"
  | .Large => "1K"
  | .ExtraLarge => "10K"

/-- Deposit record (coinjoin.rs, `Deposit`). -/
structure Deposit where
  commitment : Bytes32
  timestamp : Nat
  nullifier : Bytes32
  feePaid : Int
  senderAddress : Address
  recipientAddress : Address
  maxSlippageBps : Nat
  expiryTimestamp : Nat
  tokenIn : Address
  tokenOut : Address
  minAmountOut : Int
deriving DecidableEq, Repr

/-- Withdrawal request record (coinjoin.rs, `WithdrawalRequest`). -/
structure WithdrawalRequest where
  nullifierHash : Bytes32
  recipientHash : Bytes32
  proofHash : Bytes32
  requestedTimestamp : Nat
deriving DecidableEq, Repr

/-- Per-denomination pool record (coinjoin.rs, `CoinJoinPool`). -/
structure CoinJoinPool where
  denomination : Denomination
  deposits : List Deposit
  withdrawals : List WithdrawalRequest
  merkleRoot : Bytes32
  minimumPoolSize : Nat
  maximumPoolSize : Nat
  feeBasisPoints : Nat
deriving DecidableEq, Repr

/-- Mixing result record (coinjoin.rs, `MixResult`). -/
structure MixResult where
  success : Bool
  mixedAmounts : List Int
  gasUsed : Nat
  anonymitySetSize : Nat
  feesPaid : Int
deriving DecidableEq, Repr

/-- Payout record (coinjoin.rs, `PayoutInfo`). -/
structure PayoutInfo where
  equalPayoutAmount : Int
  totalInputAmount : Int
  totalOutputAmount : Int
  slippageBps : Nat
  participantCount : Nat
deriving DecidableEq, Repr

/-- Instance-storage contents of the batch contract that the modelled
operations read or write. -/
structure ContractState where
  initialized : Bool
  coinjoinEnabled : Bool
  factoryAddr : Option Address
  pools : Denomination → Option CoinJoinPool
  nullifierUsed : List Bytes32
deriving DecidableEq

/-- Observable answers of the external factory and pair contracts: the pair
address the factory returns, the pair's `token_0` and its reserves. -/
structure PairExt where
  pairAddr : Address
  token0 : Address
  reserve0 : Int
  reserve1 : Int
deriving DecidableEq, Repr

/-- A token transfer performed through a token client. -/
structure Transfer where
  token : Address
  source : Address
  dest : Address
  amount : Int
deriving DecidableEq, Repr

/-- Outbound cross-contract invocations a settlement performs, in order. -/
inductive ExtCall where
  | getPair (tokenA tokenB : Address)
  | token0
  | getReserves
  | transfer (t : Transfer)
  | swap (amount0Out amount1Out : Int) (dest : Address)
deriving DecidableEq, Repr

/-- `CoinJoinMixer::is_coinjoin_enabled`. -/
def isCoinjoinEnabled (s : ContractState) : Bool := s.coinjoinEnabled

/-- `CoinJoinMixer::get_pool` as an `Except` (missing pool is `InvalidInput`). -/
def getPool (s : ContractState) (d : Denomination) : Except BatcherError CoinJoinPool :=
  match s.pools d with
  | some pool => .ok pool
  | none => .error .InvalidInput

/-- `CoinJoinMixer::update_pool`: store the pool under its denomination key. -/
def updatePool (s : ContractState) (d : Denomination) (pool : CoinJoinPool) : ContractState :=
  { s with pools := fun e => if e = d then some pool else s.pools e }

/-- `CoinJoinMixer::is_nullifier_used`. -/
def isNullifierUsed (s : ContractState) (nullifierHash : Bytes32) : Bool :=
  s.nullifierUsed.any (fun n => n = nullifierHash)

/-- `CoinJoinMixer::estimate_mixing_gas_cost` (coinjoin.rs lines 703-717). -/
def estimateMixingGasCost (depositCount : Nat) : Nat :=
  25000 + depositCount * 8000 + 5000 + 3000

/-- `CoinJoinMixer::deposit` (coinjoin.rs lines 193-252): no nullifier check is
performed; the deposit is pushed back unconditionally once the mixer is
enabled and the pool exists. -/
def CoinJoinMixer.deposit (s : ContractState) (timestamp : Nat)
    (denomination : Denomination) (recipientCommitment nullifier : Bytes32)
    (senderAddress recipientAddress : Address) (maxSlippageBps : Nat)
    (tokenIn tokenOut : Address) (minAmountOut : Int) :
    Except BatcherError ContractState :=
  if ¬ isCoinjoinEnabled s then .error .InvalidInput
  else
    match s.pools denomination with
    | none => .error .InvalidInput
    | some pool =>
      let expectedAmount := denomination.value
      let expiryTimestamp := timestamp + 48 * 60 * 60
      let dep : Deposit :=
        { commitment := recipientCommitment
          timestamp := timestamp
          nullifier := nullifier
          feePaid := Int.tdiv (expectedAmount * (pool.feeBasisPoints : Int)) 10000
          senderAddress := senderAddress
          recipientAddress := recipientAddress
          maxSlippageBps := maxSlippageBps
          expiryTimestamp := expiryTimestamp
          tokenIn := tokenIn
          tokenOut := tokenOut
          minAmountOut := minAmountOut }
      .ok (updatePool s denomination { pool with deposits := pool.deposits ++ [dep] })

/-- `CoinJoinMixer::request_withdrawal` (coinjoin.rs lines 256-290): this is
the only operation that consults and updates the used-nullifier set. -/
def CoinJoinMixer.requestWithdrawal (s : ContractState) (timestamp : Nat)
    (denomination : Denomination) (nullifierHash recipientHash proofHash : Bytes32) :
    Except BatcherError ContractState :=
  if ¬ isCoinjoinEnabled s then .error .InvalidInput
  else
    match s.pools denomination with
    | none => .error .InvalidInput
    | some pool =>
      if isNullifierUsed s nullifierHash then .error .InvalidInput
      else
        let withdrawal : WithdrawalRequest :=
          { nullifierHash := nullifierHash
            recipientHash := recipientHash
            proofHash := proofHash
            requestedTimestamp := timestamp }
        let s1 := updatePool s denomination
          { pool with withdrawals := pool.withdrawals ++ [withdrawal] }
        .ok { s1 with nullifierUsed := nullifierHash :: s1.nullifierUsed }

/-- The unique-sender scan of `execute_mixing` (coinjoin.rs lines 306-324):
collect each sender the first time it is seen, preserving order. -/
def uniqueSenders (deposits : List Deposit) : List Address :=
  deposits.foldl
    (fun acc d => if acc.any (fun a => a = d.senderAddress) then acc else acc ++ [d.senderAddress])
    []

/-- `CoinJoinMixer::execute_mixing` (coinjoin.rs lines 294-381): when enough
unique senders are present it removes the first `min(len, max_to_mix)`
deposits in insertion order; it performs no participant selection, no swap
and no token transfer. -/
def executeMixing (s : ContractState) (denomination : Denomination)
    (maxDeposits : Option Nat) : Except BatcherError (MixResult × ContractState) :=
  if ¬ isCoinjoinEnabled s then .error .InvalidInput
  else
    match s.pools denomination with
    | none => .error .InvalidInput
    | some pool =>
      let maxToMix := maxDeposits.getD pool.maximumPoolSize
      if (uniqueSenders pool.deposits).length < pool.minimumPoolSize then
        .ok ({ success := false, mixedAmounts := [], gasUsed := 0,
               anonymitySetSize := 0, feesPaid := 0 }, s)
      else
        let mixCount := min pool.deposits.length maxToMix
        let mixedAmounts := (pool.deposits.take mixCount).map
          (fun d => denomination.value - d.feePaid)
        let totalFees := ((pool.deposits.take mixCount).map (fun d => d.feePaid)).sum
        let s1 := updatePool s denomination
          { pool with deposits := pool.deposits.drop mixCount }
        .ok ({ success := true, mixedAmounts := mixedAmounts,
               gasUsed := estimateMixingGasCost mixCount,
               anonymitySetSize := mixCount, feesPaid := totalFees }, s1)

/-- Reserve on the input side: `calculate_equal_payout` and
`try_execute_batch_swap` both pick `reserve_0` when `token_0 == token_in`. -/
def reserveInFor (ext : PairExt) (tokenIn : Address) : Int :=
  if ext.token0 = tokenIn then ext.reserve0 else ext.reserve1

/-- Reserve on the output side (the other one). -/
def reserveOutFor (ext : PairExt) (tokenIn : Address) : Int :=
  if ext.token0 = tokenIn then ext.reserve1 else ext.reserve0

/-- Arithmetic block of `calculate_equal_payout` (coinjoin.rs lines 402-468):
aggregated constant-product output, equal per-participant share and realized
slippage.  `i128` division truncates (`Int.tdiv`); the final `as u32` cast on
the slippage truncates to the low 32 bits. -/
def payoutOf (denomination : Denomination) (reserveIn reserveOut : Int)
    (deposits : List Deposit) : PayoutInfo :=
  let participantCount := deposits.length
  let amountPerDeposit := denomination.value
  let totalInputAmount := amountPerDeposit * (participantCount : Int)
  let amountInWithFee := totalInputAmount * 997
  let numerator := amountInWithFee * reserveOut
  let denominator := reserveIn * 1000 + amountInWithFee
  let totalOutputAmount := Int.tdiv numerator denominator
  let equalPayoutAmount := Int.tdiv totalOutputAmount (participantCount : Int)
  let totalMinExpected := (deposits.map (fun d => d.minAmountOut)).sum
  let avgMinExpected := Int.tdiv totalMinExpected (participantCount : Int)
  let slippageBps : Nat :=
    if 0 < avgMinExpected then
      let slippageAmount :=
        if equalPayoutAmount < avgMinExpected then avgMinExpected - equalPayoutAmount else 0
      ((Int.tdiv (slippageAmount * 10000) avgMinExpected).emod (2 ^ 32)).toNat
    else 0
  { equalPayoutAmount := equalPayoutAmount
    totalInputAmount := totalInputAmount
    totalOutputAmount := totalOutputAmount
    slippageBps := slippageBps
    participantCount := participantCount }

/-- `CoinJoinMixer::calculate_equal_payout` (coinjoin.rs lines 385-477):
empty input and mixed token pairs are `InvalidInput`; a missing factory
address is `NotInitialized`; otherwise the pair is queried for its reserves
and the arithmetic block `payoutOf` runs. -/
def calculateEqualPayout (s : ContractState) (ext : PairExt)
    (denomination : Denomination) (deposits : List Deposit) :
    Except BatcherError PayoutInfo :=
  match deposits with
  | [] => .error .InvalidInput
  | firstDeposit :: _ =>
    let tokenIn := firstDeposit.tokenIn
    let tokenOut := firstDeposit.tokenOut
    if ¬ deposits.all (fun d => d.tokenIn = tokenIn ∧ d.tokenOut = tokenOut) then
      .error .InvalidInput
    else
      match s.factoryAddr with
      | none => .error .NotInitialized
      | some _ =>
        .ok (payoutOf denomination (reserveInFor ext tokenIn) (reserveOutFor ext tokenIn) deposits)

/-- Two's-complement wrap of an `i128` value. -/
def wrap128 (x : Int) : Int := (x + 2 ^ 127).emod (2 ^ 128) - 2 ^ 127

/-- The arithmetic block of `calculate_equal_payout` under wrapping `i128`
semantics (release profile without overflow checks): every multiplication and
addition wraps modulo `2^128`.  The source performs no overflow detection. -/
def payoutOfI128 (denomination : Denomination) (reserveIn reserveOut : Int)
    (deposits : List Deposit) : PayoutInfo :=
  let participantCount := deposits.length
  let amountPerDeposit := denomination.value
  let totalInputAmount := wrap128 (amountPerDeposit * (participantCount : Int))
  let amountInWithFee := wrap128 (totalInputAmount * 997)
  let numerator := wrap128 (amountInWithFee * reserveOut)
  let denominator := wrap128 (wrap128 (reserveIn * 1000) + amountInWithFee)
  let totalOutputAmount := Int.tdiv numerator denominator
  let equalPayoutAmount := Int.tdiv totalOutputAmount (participantCount : Int)
  let totalMinExpected := (deposits.map (fun d => d.minAmountOut)).foldl
    (fun acc x => wrap128 (acc + x)) 0
  let avgMinExpected := Int.tdiv totalMinExpected (participantCount : Int)
  let slippageBps : Nat :=
    if 0 < avgMinExpected then
      let slippageAmount :=
        if equalPayoutAmount < avgMinExpected then avgMinExpected - equalPayoutAmount else 0
      ((Int.tdiv (wrap128 (slippageAmount * 10000)) avgMinExpected).emod (2 ^ 32)).toNat
    else 0
  { equalPayoutAmount := equalPayoutAmount
    totalInputAmount := totalInputAmount
    totalOutputAmount := totalOutputAmount
    slippageBps := slippageBps
    participantCount := participantCount }

/-- `calculate_equal_payout` under wrapping `i128` semantics. -/
def calculateEqualPayoutI128 (s : ContractState) (ext : PairExt)
    (denomination : Denomination) (deposits : List Deposit) :
    Except BatcherError PayoutInfo :=
  match deposits with
  | [] => .error .InvalidInput
  | firstDeposit :: _ =>
    let tokenIn := firstDeposit.tokenIn
    let tokenOut := firstDeposit.tokenOut
    if ¬ deposits.all (fun d => d.tokenIn = tokenIn ∧ d.tokenOut = tokenOut) then
      .error .InvalidInput
    else
      match s.factoryAddr with
      | none => .error .NotInitialized
      | some _ =>
        .ok (payoutOfI128 denomination (reserveInFor ext tokenIn) (reserveOutFor ext tokenIn)
          deposits)

/-- One sweep of the bubble sort in `sort_deposits_by_min_amount`, with the
element currently being carried rightwards held in the first argument:
`bubbleGo a l` is the sweep over `a :: l`. -/
def bubbleGo (a : Deposit) : List Deposit → List Deposit
  | [] => [a]
  | b :: rest =>
    if b.minAmountOut < a.minAmountOut then b :: bubbleGo a rest
    else a :: bubbleGo b rest

/-- One sweep of the bubble sort in `sort_deposits_by_min_amount`
(coinjoin.rs lines 489-501): adjacent pairs are swapped when the left
`min_amount_out` is strictly greater. -/
def bubblePass : List Deposit → List Deposit
  | [] => []
  | a :: rest => bubbleGo a rest

/-- `CoinJoinMixer::sort_deposits_by_min_amount` (coinjoin.rs lines 482-508):
`len` bubble sweeps.  The source truncates sweep `i` after `len - i - 1`
comparisons; the skipped comparisons fall inside the already-sorted maximal
suffix and can never swap, so a full sweep computes the same list. -/
def sortDepositsByMinAmount (deposits : List Deposit) : List Deposit :=
  bubblePass^[deposits.length] deposits

/-- The descending-size loop of `find_optimal_participant_set`
(coinjoin.rs lines 541-601), with `k` the current `set_size`.  When `k`
falls below the minimum the loop is over (`InsufficientBalance`); errors of
`calculate_equal_payout` propagate; the first fully qualifying prefix is
returned.  The `k = 0` body (reachable only with a zero minimum) feeds the
empty candidate set to the payout calculator, which rejects it. -/
def findLoop (s : ContractState) (ext : PairExt) (denomination : Denomination)
    (minParticipants : Nat) (sorted : List Deposit) :
    Nat → Except BatcherError (List Deposit)
  | 0 =>
    if 0 < minParticipants then .error .InsufficientBalance
    else .error .InvalidInput
  | (k + 1) =>
    if k + 1 < minParticipants then .error .InsufficientBalance
    else
      let candidateSet := sorted.take (k + 1)
      match calculateEqualPayout s ext denomination candidateSet with
      | .error e => .error e
      | .ok payoutInfo =>
        if candidateSet.all (fun d =>
            decide (d.minAmountOut ≤ payoutInfo.equalPayoutAmount) &&
            decide (payoutInfo.slippageBps ≤ d.maxSlippageBps)) then
          .ok candidateSet
        else
          findLoop s ext denomination minParticipants sorted k

/-- `CoinJoinMixer::find_optimal_participant_set` (coinjoin.rs lines 513-609). -/
def findOptimalParticipantSet (s : ContractState) (ext : PairExt)
    (denomination : Denomination) (allDeposits : List Deposit) :
    Except BatcherError (List Deposit) :=
  if allDeposits.isEmpty then .error .InvalidInput
  else
    match s.pools denomination with
    | none => .error .InvalidInput
    | some pool =>
      let sorted := sortDepositsByMinAmount allDeposits
      findLoop s ext denomination pool.minimumPoolSize sorted allDeposits.length

/-- Big-endian bytes of a `u64` value. -/
def u64beBytes (x : Nat) : List Nat :=
  (List.range 8).map (fun i => x % 2 ^ 64 / 256 ^ (7 - i) % 256)

/-- Big-endian two's-complement bytes of an `i128` value. -/
def i128beBytes (x : Int) : List Nat :=
  (List.range 16).map (fun i => (x.emod (2 ^ 128)).toNat / 256 ^ (15 - i) % 256)

/-- A value cast `as usize` on the wasm32 target keeps the low 32 bits. -/
def usizeOfInt (x : Int) : Nat := (x.emod (2 ^ 32)).toNat

/-- `SoroSwapBatcher::create_commitment` (lib.rs lines 444-465): bytes 0-7 are
the big-endian ledger timestamp, bytes 8-31 follow the fixed pattern.  The
receiving address is accepted but never used. -/
def createCommitment (timestamp : Nat) (receivingAddress : Address) : Bytes32 :=
  let _ := receivingAddress
  u64beBytes timestamp ++
    (List.range 24).map (fun k => ((k + 8) * 17 + timestamp % 2 ^ 32) % 256)

/-- `SoroSwapBatcher::create_nullifier` (lib.rs lines 469-497): bytes 0-15 are
the big-endian amount, bytes 16-23 the big-endian timestamp, bytes 24-31 a
pattern over amount and timestamp.  The user address parameter is ignored
(`_user_address`). -/
def createNullifier (userAddress : Address) (amount : Int) (timestamp : Nat) : Bytes32 :=
  let _ := userAddress
  i128beBytes amount ++ u64beBytes timestamp ++
    (List.range 8).map
      (fun k => ((k + 24) * 23 + usizeOfInt amount + timestamp % 2 ^ 32) % 256)

/-- `SoroSwapBatcher::try_execute_batch_swap` (lib.rs lines 295-440): select
the participant set, recompute the aggregated output against the same live
reserves, transfer the aggregated input to the pair, invoke its one-sided
swap, pay each qualifying recipient the equal share, and rebuild the pool
keeping exactly the deposits whose nullifier matches no settled deposit. -/
def tryExecuteBatchSwap (s : ContractState) (ext : PairExt)
    (denomination : Denomination) (tokenIn tokenOut : Address)
    (minAmountOut : Int) (toAddr : Address) :
    Except BatcherError (ContractState × List ExtCall) :=
  let _ := minAmountOut
  let _ := toAddr
  match s.pools denomination with
  | none => .error .InvalidInput
  | some pool =>
    match findOptimalParticipantSet s ext denomination pool.deposits with
    | .error e => .error e
    | .ok qualifyingDeposits =>
      match calculateEqualPayout s ext denomination qualifyingDeposits with
      | .error e => .error e
      | .ok payoutInfo =>
        match s.factoryAddr with
        | none => .error .NotInitialized
        | some _ =>
          let isTokenInToken0 := ext.token0 = tokenIn
          let transferIn : Transfer :=
            { token := tokenIn, source := batchContractAddress, dest := ext.pairAddr,
              amount := payoutInfo.totalInputAmount }
          let reserveIn := reserveInFor ext tokenIn
          let reserveOut := reserveOutFor ext tokenIn
          let amountInWithFee := payoutInfo.totalInputAmount * 997
          let numerator := amountInWithFee * reserveOut
          let denominator := reserveIn * 1000 + amountInWithFee
          let totalOutput := Int.tdiv numerator denominator
          let amount0Out := if isTokenInToken0 then (0 : Int) else totalOutput
          let amount1Out := if isTokenInToken0 then totalOutput else (0 : Int)
          let payoutTransfers := qualifyingDeposits.map (fun d =>
            ExtCall.transfer
              { token := tokenOut, source := batchContractAddress,
                dest := d.recipientAddress, amount := payoutInfo.equalPayoutAmount })
          let remainingDeposits := pool.deposits.filter (fun d =>
            ¬ qualifyingDeposits.any (fun q => q.nullifier = d.nullifier))
          let s1 := updatePool s denomination { pool with deposits := remainingDeposits }
          .ok (s1,
            [ExtCall.getPair tokenIn tokenOut, ExtCall.token0,
             ExtCall.transfer transferIn, ExtCall.getReserves,
             ExtCall.swap amount0Out amount1Out batchContractAddress] ++ payoutTransfers)

/-- `SoroSwapBatcher::private_swap` (lib.rs lines 191-288): validate the
denomination, transfer the input amount into custody, store the deposit, and
when the pool's total deposit count has reached the minimum attempt the batch
swap, swallowing any settlement error.  The successful return value is the
ledger timestamp.  The trace collects the custody transfer and any calls of
the settlement attempt that committed. -/
def privateSwap (s : ContractState) (ext : PairExt) (tokenIn tokenOut : Address)
    (amountIn minAmountOut : Int) (maxSlippageBps : Nat)
    (userAddress receivingAddress : Address) (timestamp : Nat) :
    Except BatcherError (Nat × ContractState × List ExtCall) :=
  if ¬ s.initialized then .error .NotInitialized
  else
    match Denomination.fromAmount amountIn with
    | none => .error .InvalidInput
    | some denomination =>
      let transferIn := ExtCall.transfer
        { token := tokenIn, source := userAddress, dest := batchContractAddress,
          amount := amountIn }
      let commitment := createCommitment timestamp receivingAddress
      let nullifier := createNullifier userAddress amountIn timestamp
      match CoinJoinMixer.deposit s timestamp denomination commitment nullifier
          userAddress receivingAddress maxSlippageBps tokenIn tokenOut minAmountOut with
      | .error e => .error e
      | .ok s1 =>
        match s1.pools denomination with
        | none => .error .InvalidInput
        | some pool =>
          if pool.minimumPoolSize ≤ pool.deposits.length then
            match tryExecuteBatchSwap s1 ext denomination tokenIn tokenOut
                minAmountOut receivingAddress with
            | .ok (s2, calls) => .ok (timestamp, s2, transferIn :: calls)
            | .error _ => .ok (timestamp, s1, [transferIn])
          else .ok (timestamp, s1, [transferIn])

/-- `SoroSwapBatcher::symbol_to_denomination` (lib.rs lines 595-607). -/
def symbolToDenomination (symbol : String) : Except BatcherError Denomination :=
  if symbol = "10" then .ok .Small
  else if symbol = "100" then .ok .Medium
  else if symbol = "1K" then .ok .Large
  else if symbol = "10K" then .ok .ExtraLarge
  else .error .InvalidInput

/-- `SoroSwapBatcher::execute_coinjoin_mixing` (lib.rs lines 501-517): resolve
the symbol, run `execute_mixing` and return its anonymity-set size. -/
def executeCoinjoinMixing (s : ContractState) (denominationSymbol : String)
    (maxDeposits : Option Nat) : Except BatcherError (Nat × ContractState) :=
  if ¬ s.initialized then .error .NotInitialized
  else
    match symbolToDenomination denominationSymbol with
    | .error e => .error e
    | .ok denomination =>
      match executeMixing s denomination maxDeposits with
      | .error e => .error e
      | .ok (mixResult, s1) => .ok (mixResult.anonymitySetSize, s1)

/-- Comparison key of the deposit sort. -/
def depLE (a b : Deposit) : Prop := a.minAmountOut ≤ b.minAmountOut

theorem bubblePass_nil : bubblePass [] = [] := rfl

theorem bubblePass_singleton (a : Deposit) : bubblePass [a] = [a] := rfl

theorem bubblePass_cons_cons (a b : Deposit) (rest : List Deposit) :
    bubblePass (a :: b :: rest) =
      if b.minAmountOut < a.minAmountOut then b :: bubblePass (a :: rest)
      else a :: bubblePass (b :: rest) := rfl

theorem bubbleGo_perm (l : List Deposit) : ∀ a, (bubbleGo a l).Perm (a :: l) := by
  induction l with
  | nil => intro a; exact List.Perm.refl _
  | cons b rest ih =>
    intro a
    rw [bubbleGo]
    by_cases h : b.minAmountOut < a.minAmountOut
    · rw [if_pos h]
      exact ((ih a).cons b).trans (List.Perm.swap a b rest)
    · rw [if_neg h]
      exact (ih b).cons a

theorem bubblePass_perm (l : List Deposit) : (bubblePass l).Perm l := by
  cases l with
  | nil => exact List.Perm.refl _
  | cons a rest => exact bubbleGo_perm rest a

theorem bubbleGo_max (l : List Deposit) :
    ∀ a, ∃ ys M, bubbleGo a l = ys ++ [M] ∧ ∀ x ∈ a :: l, depLE x M := by
  induction l with
  | nil =>
    intro a
    exact ⟨[], a, rfl, by
      intro x hx
      rcases List.mem_singleton.mp hx with rfl
      exact le_refl _⟩
  | cons b rest ih =>
    intro a
    rw [bubbleGo]
    by_cases h : b.minAmountOut < a.minAmountOut
    · obtain ⟨ys, M, heq, hmax⟩ := ih a
      rw [if_pos h]
      refine ⟨b :: ys, M, by rw [heq]; rfl, ?_⟩
      intro x hx
      rcases List.mem_cons.mp hx with h1 | hx2
      · subst h1
        exact hmax x (by simp)
      · rcases List.mem_cons.mp hx2 with h1 | h1
        · subst h1
          exact le_trans (le_of_lt h) (hmax a (by simp))
        · exact hmax x (by simp [h1])
    · obtain ⟨ys, M, heq, hmax⟩ := ih b
      rw [if_neg h]
      refine ⟨a :: ys, M, by rw [heq]; rfl, ?_⟩
      intro x hx
      rcases List.mem_cons.mp hx with h1 | hx2
      · subst h1
        exact le_trans (not_lt.mp h) (hmax b (by simp))
      · exact hmax x hx2

theorem bubblePass_max (l : List Deposit) (hne : l ≠ []) :
    ∃ ys M, bubblePass l = ys ++ [M] ∧ ∀ x ∈ l, depLE x M := by
  cases l with
  | nil => exact absurd rfl hne
  | cons a rest => exact bubbleGo_max rest a

theorem bubbleGo_append_max (l : List Deposit) :
    ∀ (a M : Deposit), (∀ x ∈ a :: l, depLE x M) →
      bubbleGo a (l ++ [M]) = bubbleGo a l ++ [M] := by
  induction l with
  | nil =>
    intro a M hmax
    have haM : ¬ M.minAmountOut < a.minAmountOut := not_lt.mpr (hmax a (by simp))
    show bubbleGo a [M] = [a] ++ [M]
    rw [bubbleGo, if_neg haM]
    rfl
  | cons b rest ih =>
    intro a M hmax
    rw [List.cons_append, bubbleGo, bubbleGo]
    by_cases h : b.minAmountOut < a.minAmountOut
    · rw [if_pos h, if_pos h, ih a M (fun x hx => by
        rcases List.mem_cons.mp hx with h1 | h1
        · subst h1; exact hmax x (by simp)
        · exact hmax x (by simp [h1]))]
      rfl
    · rw [if_neg h, if_neg h, ih b M (fun x hx => hmax x (by simp [List.mem_cons.mp hx]))]
      rfl

theorem bubblePass_append_max (l : List Deposit) (M : Deposit)
    (hmax : ∀ x ∈ l, depLE x M) :
    bubblePass (l ++ [M]) = bubblePass l ++ [M] := by
  cases l with
  | nil =>
    rw [List.nil_append, bubblePass_nil, bubblePass_singleton, List.nil_append]
  | cons a rest =>
    rw [List.cons_append]
    exact bubbleGo_append_max rest a M hmax

theorem bubblePass_iterate_perm (n : Nat) (l : List Deposit) :
    (bubblePass^[n] l).Perm l := by
  induction n generalizing l with
  | zero => exact List.Perm.refl _
  | succ n ih =>
    rw [Function.iterate_succ_apply]
    exact (ih (bubblePass l)).trans (bubblePass_perm l)

theorem bubblePass_iterate_append_max (n : Nat) (l : List Deposit) (M : Deposit)
    (hmax : ∀ x ∈ l, depLE x M) :
    bubblePass^[n] (l ++ [M]) = bubblePass^[n] l ++ [M] := by
  induction n generalizing l with
  | zero => rfl
  | succ n ih =>
    rw [Function.iterate_succ_apply, Function.iterate_succ_apply,
      bubblePass_append_max l M hmax]
    exact ih (bubblePass l) (fun x hx => hmax x ((bubblePass_perm l).mem_iff.mp hx))

theorem bubblePass_iterate_pairwise (n : Nat) (l : List Deposit) (hlen : l.length ≤ n) :
    (bubblePass^[n] l).Pairwise depLE := by
  induction n generalizing l with
  | zero =>
    rw [List.length_eq_zero.mp (Nat.le_zero.mp hlen)]
    exact List.Pairwise.nil
  | succ n ih =>
    by_cases hne : l = []
    · subst hne
      rw [Function.iterate_succ_apply, bubblePass_nil]
      exact ih [] (by simp)
    · obtain ⟨ys, M, heq, hmax⟩ := bubblePass_max l hne
      have hysmax : ∀ x ∈ ys, depLE x M := by
        intro x hx
        exact hmax x ((bubblePass_perm l).mem_iff.mp (by rw [heq]; simp [hx]))
      have hyslen : ys.length ≤ n := by
        have h1 : (bubblePass l).length = l.length := (bubblePass_perm l).length_eq
        rw [heq] at h1
        simp at h1
        omega
      rw [Function.iterate_succ_apply, heq, bubblePass_iterate_append_max n ys M hysmax]
      rw [List.pairwise_append]
      refine ⟨ih ys hyslen, List.pairwise_singleton _ _, ?_⟩
      intro x hx y hy
      rcases List.mem_singleton.mp hy with rfl
      exact hysmax x ((bubblePass_iterate_perm n ys).mem_iff.mp hx)

/-- The deposit sort returns a permutation of its input. -/
theorem sortDeposits_perm (l : List Deposit) :
    (sortDepositsByMinAmount l).Perm l :=
  bubblePass_iterate_perm l.length l

/-- The deposit sort returns a list ascending in `min_amount_out`. -/
theorem sortDeposits_pairwise (l : List Deposit) :
    (sortDepositsByMinAmount l).Pairwise depLE :=
  bubblePass_iterate_pairwise l.length l (le_refl _)

theorem calculateEqualPayout_eq_ok (s : ContractState) (ext : PairExt)
    (denomination : Denomination) (tin tout : Address) (deposits : List Deposit)
    (hne : deposits ≠ [])
    (huni : ∀ d ∈ deposits, d.tokenIn = tin ∧ d.tokenOut = tout)
    (f : Address) (hfac : s.factoryAddr = some f) :
    calculateEqualPayout s ext denomination deposits =
      .ok (payoutOf denomination (reserveInFor ext tin) (reserveOutFor ext tin) deposits) := by
  match deposits, hne with
  | d0 :: rest, _ =>
    have h0 := huni d0 (by simp)
    have hall : ((d0 :: rest).all fun d =>
        decide (d.tokenIn = tin ∧ d.tokenOut = tout)) = true := by
      rw [List.all_eq_true]
      intro d hd
      have hd2 := huni d hd
      simp only [decide_eq_true_eq]
      exact ⟨hd2.1, hd2.2⟩
    simp only [calculateEqualPayout, hfac, h0.1, h0.2]
    rw [hall]
    simp

/-- Qualification test of the selector for the size-`k` prefix of the sorted
list: the equal share covers each `min_amount_out` and the realized slippage
is within each `max_slippage_bps` (coinjoin.rs lines 570-590). -/
def qualB (denomination : Denomination) (rIn rOut : Int) (sorted : List Deposit)
    (k : Nat) : Bool :=
  (sorted.take k).all (fun d =>
    decide (d.minAmountOut ≤ (payoutOf denomination rIn rOut (sorted.take k)).equalPayoutAmount) &&
    decide ((payoutOf denomination rIn rOut (sorted.take k)).slippageBps ≤ d.maxSlippageBps))

theorem findLoop_succ_eq (s : ContractState) (ext : PairExt)
    (denomination : Denomination) (m : Nat) (sorted : List Deposit)
    (rIn rOut : Int) (k : Nat)
    (hcalc : calculateEqualPayout s ext denomination (sorted.take (k + 1)) =
      .ok (payoutOf denomination rIn rOut (sorted.take (k + 1))))
    (hm : m ≤ k + 1) :
    findLoop s ext denomination m sorted (k + 1) =
      if qualB denomination rIn rOut sorted (k + 1) then .ok (sorted.take (k + 1))
      else findLoop s ext denomination m sorted k := by
  rw [findLoop, if_neg (by omega)]
  simp only [hcalc, qualB]

theorem findLoop_all_fail (s : ContractState) (ext : PairExt)
    (denomination : Denomination) (m : Nat) (sorted : List Deposit)
    (rIn rOut : Int)
    (hm : 0 < m)
    (hcalc : ∀ j, 0 < j → calculateEqualPayout s ext denomination (sorted.take j) =
      .ok (payoutOf denomination rIn rOut (sorted.take j))) :
    ∀ k, (∀ i, m ≤ i → i ≤ k → qualB denomination rIn rOut sorted i = false) →
      findLoop s ext denomination m sorted k = .error .InsufficientBalance := by
  intro k
  induction k with
  | zero =>
    intro _
    rw [findLoop, if_pos hm]
  | succ k ih =>
    intro hfail
    by_cases hmk : k + 1 < m
    · rw [findLoop, if_pos hmk]
    · rw [findLoop_succ_eq s ext denomination m sorted rIn rOut k
        (hcalc (k + 1) (by omega)) (by omega)]
      rw [if_neg (by simp [hfail (k + 1) (by omega) (le_refl _)])]
      exact ih (fun i h1 h2 => hfail i h1 (by omega))

theorem findLoop_success (s : ContractState) (ext : PairExt)
    (denomination : Denomination) (m : Nat) (sorted : List Deposit)
    (rIn rOut : Int)
    (hm : 0 < m)
    (hcalc : ∀ j, 0 < j → calculateEqualPayout s ext denomination (sorted.take j) =
      .ok (payoutOf denomination rIn rOut (sorted.take j))) :
    ∀ k j, m ≤ j → j ≤ k → qualB denomination rIn rOut sorted j = true →
      (∀ i, j < i → i ≤ k → qualB denomination rIn rOut sorted i = false) →
      findLoop s ext denomination m sorted k = .ok (sorted.take j) := by
  intro k
  induction k with
  | zero =>
    intro j h1 h2 _ _
    omega
  | succ k ih =>
    intro j h1 h2 hq hfail
    have heq := findLoop_succ_eq s ext denomination m sorted rIn rOut k
      (hcalc (k + 1) (by omega)) (by omega)
    by_cases hj : j = k + 1
    · subst hj
      rw [heq, if_pos hq]
    · have hfk : qualB denomination rIn rOut sorted (k + 1) = false :=
        hfail (k + 1) (by omega) (le_refl _)
      rw [heq, if_neg (by simp [hfk])]
      exact ih j h1 (by omega) hq (fun i hi1 hi2 => hfail i hi1 (by omega))

/-- C2: for every non-empty pool of deposits over one token pair, with a
positive minimum set size `m` and the factory configured, the participant-set
selector returns exactly the first `k` deposits of the
ascending-by-`min_amount_out` sorted list for the largest `k` in `[m, N]`
such that the computed equal share is at least every chosen deposit's
`min_amount_out` and the computed slippage is at most every chosen deposit's
`max_slippage_bps`; if no such `k` exists it fails with
`InsufficientBalance`. -/
theorem selector_returns_largest_qualifying_set
    (s : ContractState) (ext : PairExt) (denomination : Denomination)
    (ds : List Deposit) (pool : CoinJoinPool) (tin tout f : Address)
    (hpool : s.pools denomination = some pool)
    (hm : 0 < pool.minimumPoolSize)
    (hne : ds ≠ [])
    (hfac : s.factoryAddr = some f)
    (huni : ∀ d ∈ ds, d.tokenIn = tin ∧ d.tokenOut = tout) :
    ((sortDepositsByMinAmount ds).Perm ds ∧
      (sortDepositsByMinAmount ds).Pairwise depLE) ∧
    (∀ k, pool.minimumPoolSize ≤ k → k ≤ ds.length →
      qualB denomination (reserveInFor ext tin) (reserveOutFor ext tin)
        (sortDepositsByMinAmount ds) k = true →
      (∀ j, k < j → j ≤ ds.length →
        qualB denomination (reserveInFor ext tin) (reserveOutFor ext tin)
          (sortDepositsByMinAmount ds) j = false) →
      findOptimalParticipantSet s ext denomination ds =
        .ok ((sortDepositsByMinAmount ds).take k)) ∧
    ((∀ k, pool.minimumPoolSize ≤ k → k ≤ ds.length →
      qualB denomination (reserveInFor ext tin) (reserveOutFor ext tin)
        (sortDepositsByMinAmount ds) k = false) →
      findOptimalParticipantSet s ext denomination ds =
        .error .InsufficientBalance) := by
  have hperm := sortDeposits_perm ds
  have hpair := sortDeposits_pairwise ds
  have hsortedne : sortDepositsByMinAmount ds ≠ [] := by
    intro h
    exact hne (by rw [← List.Perm.eq_nil (h ▸ hperm.symm)])
  have hcalc : ∀ j, 0 < j →
      calculateEqualPayout s ext denomination ((sortDepositsByMinAmount ds).take j) =
        .ok (payoutOf denomination (reserveInFor ext tin) (reserveOutFor ext tin)
          ((sortDepositsByMinAmount ds).take j)) := by
    intro j hj
    refine calculateEqualPayout_eq_ok s ext denomination tin tout _ ?_ ?_ f hfac
    · rw [Ne, List.take_eq_nil_iff]
      push_neg
      exact ⟨by omega, hsortedne⟩
    · intro d hd
      exact huni d (hperm.mem_iff.mp (List.take_subset _ _ hd))
  have hunfold : findOptimalParticipantSet s ext denomination ds =
      findLoop s ext denomination pool.minimumPoolSize
        (sortDepositsByMinAmount ds) ds.length := by
    simp only [findOptimalParticipantSet, hpool]
    rw [if_neg (by simp [hne])]
  refine ⟨⟨hperm, hpair⟩, ?_, ?_⟩
  · intro k hk1 hk2 hq hfail
    rw [hunfold]
    exact findLoop_success s ext denomination pool.minimumPoolSize
      (sortDepositsByMinAmount ds) (reserveInFor ext tin) (reserveOutFor ext tin)
      hm hcalc ds.length k hk1 hk2 hq hfail
  · intro hfailall
    rw [hunfold]
    exact findLoop_all_fail s ext denomination pool.minimumPoolSize
      (sortDepositsByMinAmount ds) (reserveInFor ext tin) (reserveOutFor ext tin)
      hm hcalc ds.length hfailall

/-- Concrete deposit used by the witness scenarios. -/
def mkDep (sender recip : Address) (nul : Bytes32) (minOut : Int) (maxSlip : Nat) : Deposit :=
  { commitment := [0], timestamp := 0, nullifier := nul, feePaid := 10000,
    senderAddress := sender, recipientAddress := recip, maxSlippageBps := maxSlip,
    expiryTimestamp := 172800, tokenIn := 1, tokenOut := 2, minAmountOut := minOut }

/-- Four deposits over one pair: three with floor nine million, one with floor
9.7 million (the shrinking-selector scenario of the specification). -/
def depsC2 : List Deposit :=
  [mkDep 11 21 [1] 9000000 500, mkDep 12 22 [2] 9000000 500,
   mkDep 13 23 [3] 9000000 500, mkDep 14 24 [4] 9700000 500]

/-- The Small pool holding the four scenario deposits. -/
def poolC2 : CoinJoinPool :=
  { denomination := .Small, deposits := depsC2, withdrawals := [], merkleRoot := [0],
    minimumPoolSize := 3, maximumPoolSize := 10, feeBasisPoints := 10 }

/-- Initialized contract state holding `poolC2` under the Small key. -/
def stateC2 : ContractState :=
  { initialized := true, coinjoinEnabled := true, factoryAddr := some 100,
    pools := fun d => if d = .Small then some poolC2 else none,
    nullifierUsed := [] }

/-- Pair with both reserves at one billion and `token_0` equal to the input
token. -/
def extC2 : PairExt :=
  { pairAddr := 200, token0 := 1, reserve0 := 1000000000, reserve1 := 1000000000 }

/-- Witness for C2: on the four-deposit scenario the largest qualifying size
is three, and the selector returns the first three sorted deposits. -/
theorem selector_returns_largest_qualifying_set_witness :
    findOptimalParticipantSet stateC2 extC2 .Small depsC2 =
      .ok ((sortDepositsByMinAmount depsC2).take 3) := by
  have h := selector_returns_largest_qualifying_set stateC2 extC2 .Small depsC2
    poolC2 1 2 100 (by decide) (by decide) (by decide) (by decide) (by decide)
  refine h.2.1 3 (by decide) (by decide) (by decide) ?_
  intro j hj1 hj2
  have hlen : depsC2.length = 4 := by decide
  rw [hlen] at hj2
  interval_cases j
  decide

/-- The deposit record built inside `CoinJoinMixer::deposit` from its
arguments and the pool's fee configuration. -/
def depositRecord (pool : CoinJoinPool) (denomination : Denomination) (ts : Nat)
    (c n : Bytes32) (sender recip : Address) (slip : Nat) (tin tout : Address)
    (minOut : Int) : Deposit :=
  { commitment := c
    timestamp := ts
    nullifier := n
    feePaid := Int.tdiv (denomination.value * (pool.feeBasisPoints : Int)) 10000
    senderAddress := sender
    recipientAddress := recip
    maxSlippageBps := slip
    expiryTimestamp := ts + 48 * 60 * 60
    tokenIn := tin
    tokenOut := tout
    minAmountOut := minOut }

theorem deposit_eq_ok (s : ContractState) (ts : Nat) (denomination : Denomination)
    (pool : CoinJoinPool) (c n : Bytes32) (sender recip : Address) (slip : Nat)
    (tin tout : Address) (minOut : Int)
    (hen : s.coinjoinEnabled = true)
    (hpool : s.pools denomination = some pool) :
    CoinJoinMixer.deposit s ts denomination c n sender recip slip tin tout minOut =
      .ok (updatePool s denomination { pool with deposits := pool.deposits ++
        [depositRecord pool denomination ts c n sender recip slip tin tout minOut] }) := by
  simp only [CoinJoinMixer.deposit, isCoinjoinEnabled, hen, hpool, not_true_eq_false,
    if_false, Bool.true_eq_false, depositRecord]

theorem updatePool_pools_self (s : ContractState) (d : Denomination)
    (pool : CoinJoinPool) : (updatePool s d pool).pools d = some pool := by
  simp [updatePool]

theorem fromAmount_mem (a : Int) (d : Denomination)
    (h : Denomination.fromAmount a = some d) :
    a = 10000000 ∨ a = 100000000 ∨ a = 1000000000 ∨ a = 10000000000 := by
  unfold Denomination.fromAmount at h
  split_ifs at h <;> simp_all

/-- Pool contents written by `init_coinjoin` (coinjoin.rs lines 167-175). -/
def initPool (d : Denomination) : CoinJoinPool :=
  { denomination := d, deposits := [], withdrawals := [], merkleRoot := [0],
    minimumPoolSize := 3, maximumPoolSize := 10, feeBasisPoints := 10 }

/-- Freshly initialized contract state: all four pools empty. -/
def stateC4 : ContractState :=
  { initialized := true, coinjoinEnabled := true, factoryAddr := some 100,
    pools := fun d => some (initPool d), nullifierUsed := [] }

/-- C4 counterexample: an amount of 2000000000 (the claimed fourth
denomination) is not recognized by `from_amount`, and `private_swap` rejects
it with `InvalidInput` even on a fully initialized state; the amount
10000000000 is the one actually accepted for the `ExtraLarge` variant. -/
theorem denomination_admission_counterexample :
    Denomination.fromAmount 2000000000 = none ∧
    Denomination.fromAmount 10000000000 = some .ExtraLarge ∧
    privateSwap stateC4 extC2 1 2 2000000000 0 0 7 9 1000 = .error .InvalidInput := by
  refine ⟨by decide, by decide, by decide⟩

/-- C4 (amended): on an initialized state with the mixer enabled and all
pools present, `private_swap` succeeds exactly for the four amounts
10000000, 100000000, 1000000000 and 10000000000; every other amount is
rejected. -/
theorem denomination_admission_set
    (s : ContractState) (ext : PairExt) (tokenIn tokenOut : Address)
    (amountIn minAmountOut : Int) (maxSlippageBps : Nat)
    (userAddress receivingAddress : Address) (timestamp : Nat)
    (hinit : s.initialized = true)
    (hen : s.coinjoinEnabled = true)
    (hpools : ∀ d, (s.pools d).isSome) :
    (∃ r, privateSwap s ext tokenIn tokenOut amountIn minAmountOut maxSlippageBps
      userAddress receivingAddress timestamp = .ok r) ↔
      (amountIn = 10000000 ∨ amountIn = 100000000 ∨
       amountIn = 1000000000 ∨ amountIn = 10000000000) := by
  constructor
  · rintro ⟨r, hr⟩
    rcases h : Denomination.fromAmount amountIn with _ | denom
    · rw [privateSwap, if_neg (by simp [hinit]), h] at hr
      cases hr
    · exact fromAmount_mem amountIn denom h
  · intro hmem
    have hd : ∃ d, Denomination.fromAmount amountIn = some d := by
      rcases hmem with h | h | h | h <;> subst h <;> exact ⟨_, rfl⟩
    obtain ⟨denom, hd⟩ := hd
    obtain ⟨pool, hpool⟩ := Option.isSome_iff_exists.mp (hpools denom)
    rw [privateSwap, if_neg (by simp [hinit])]
    simp only [hd]
    rw [deposit_eq_ok s timestamp denom pool _ _ userAddress receivingAddress
      maxSlippageBps tokenIn tokenOut minAmountOut hen hpool]
    simp only [updatePool_pools_self]
    split
    · rcases htry : tryExecuteBatchSwap (updatePool s denom _) ext denom tokenIn
          tokenOut minAmountOut receivingAddress with e | r2
      · exact ⟨_, rfl⟩
      · exact ⟨_, rfl⟩
    · exact ⟨_, rfl⟩

/-- Witness for C4: the amount 10000000 is accepted on the freshly
initialized state. -/
theorem denomination_admission_set_witness :
    ∃ r, privateSwap stateC4 extC2 1 2 10000000 0 0 7 9 1000 = .ok r :=
  (denomination_admission_set stateC4 extC2 1 2 10000000 0 0 7 9 1000
    (by decide) (by decide) (fun d => by cases d <;> decide)).mpr (Or.inl rfl)

/-- Small pool already holding one deposit whose nullifier is `[5]`. -/
def poolC1 : CoinJoinPool :=
  { denomination := .Small, deposits := [mkDep 11 21 [5] 9000000 50],
    withdrawals := [], merkleRoot := [0],
    minimumPoolSize := 3, maximumPoolSize := 10, feeBasisPoints := 10 }

/-- State holding `poolC1`, with nullifier hash `[7]` already marked used. -/
def stateC1 : ContractState :=
  { initialized := true, coinjoinEnabled := true, factoryAddr := some 100,
    pools := fun d => if d = .Small then some poolC1 else none,
    nullifierUsed := [[7]] }

/-- C1 counterexample: a second deposit re-using the stored nullifier `[5]`
is accepted, not rejected with `InvalidInput`: the pool grows from one to two
deposits, both carrying nullifier `[5]`. -/
theorem duplicate_nullifier_deposit_accepted :
    CoinJoinMixer.deposit stateC1 1000 .Small [9] [5] 12 22 50 1 2 9000000 ≠
      .error .InvalidInput ∧
    (CoinJoinMixer.deposit stateC1 1000 .Small [9] [5] 12 22 50 1 2 9000000).map
      (fun s1 => (s1.pools .Small).map (fun p => p.deposits.map (fun d => d.nullifier))) =
      .ok (some [[5], [5]]) := by
  refine ⟨by decide, by decide⟩

/-- C1 (amended): `CoinJoinMixer::deposit` performs no nullifier-uniqueness
check at all: whenever the mixer is enabled and the pool exists it appends
the new deposit unconditionally, whatever its nullifier, so stored deposits
can share a nullifier.  Only `request_withdrawal` rejects an already-used
nullifier hash with `InvalidInput`. -/
theorem nullifier_check_only_on_withdrawal
    (s : ContractState) (ts : Nat) (denomination : Denomination)
    (pool : CoinJoinPool) (c n : Bytes32) (sender recip : Address)
    (slip : Nat) (tin tout : Address) (minOut : Int) (nh rh ph : Bytes32)
    (hen : s.coinjoinEnabled = true)
    (hpool : s.pools denomination = some pool) :
    (CoinJoinMixer.deposit s ts denomination c n sender recip slip tin tout minOut =
      .ok (updatePool s denomination { pool with deposits := pool.deposits ++
        [depositRecord pool denomination ts c n sender recip slip tin tout minOut] })) ∧
    (isNullifierUsed s nh = true →
      CoinJoinMixer.requestWithdrawal s ts denomination nh rh ph =
        .error .InvalidInput) := by
  constructor
  · exact deposit_eq_ok s ts denomination pool c n sender recip slip tin tout minOut
      hen hpool
  · intro hused
    simp only [CoinJoinMixer.requestWithdrawal, isCoinjoinEnabled, hen, hpool,
      not_true_eq_false, if_false, Bool.true_eq_false, hused, if_true]

/-- Witness for C1: on `stateC1` any deposit is appended whatever its
nullifier, and a withdrawal request with the used hash `[7]` is rejected. -/
theorem nullifier_check_only_on_withdrawal_witness :
    CoinJoinMixer.deposit stateC1 1000 .Small [9] [6] 12 22 50 1 2 9000000 =
      .ok (updatePool stateC1 .Small { poolC1 with deposits := poolC1.deposits ++
        [depositRecord poolC1 .Small 1000 [9] [6] 12 22 50 1 2 9000000] }) ∧
    CoinJoinMixer.requestWithdrawal stateC1 1000 .Small [7] [8] [9] =
      .error .InvalidInput := by
  have h := nullifier_check_only_on_withdrawal stateC1 1000 .Small poolC1
    [9] [6] 12 22 50 1 2 9000000 [7] [8] [9] (by decide) (by decide)
  exact ⟨h.1, h.2 (by decide)⟩

/-- C10: the server-side nullifier built by `create_nullifier` is a
deterministic function of the amount and the ledger timestamp alone; the
user address argument is ignored, so two private swaps with equal amount at
an equal timestamp receive identical 32-byte nullifiers whoever sent them. -/
theorem nullifier_ignores_user (u1 u2 : Address) (amount : Int) (timestamp : Nat) :
    createNullifier u1 amount timestamp = createNullifier u2 amount timestamp := rfl

/-- One-participant pool whose deposit asks for no minimum output. -/
def depC9 : Deposit := mkDep 11 21 [1] 0 0

/-- State holding the single-deposit Small pool for the overflow run. -/
def stateC9 : ContractState :=
  { initialized := true, coinjoinEnabled := true, factoryAddr := some 100,
    pools := fun d => if d = .Small then
      some { denomination := .Small, deposits := [depC9], withdrawals := [],
             merkleRoot := [0], minimumPoolSize := 3, maximumPoolSize := 10,
             feeBasisPoints := 10 } else none,
    nullifierUsed := [] }

/-- Pair whose output reserve `2^120` makes the product `A' * Ro` exceed the
`i128` range for the Small denomination. -/
def extC9 : PairExt :=
  { pairAddr := 200, token0 := 1, reserve0 := 1, reserve1 := 2 ^ 120 }

set_option maxRecDepth 4000 in
/-- C9: the payout calculator contains no overflow detection.  On reserves
`(1, 2^120)` with one Small deposit the product `A' * Ro = 9970000000 * 2^120`
exceeds `i128`; under wrapping semantics the calculator returns `Ok` with a
negative total output instead of failing with `InvalidInput` (with overflow
checks compiled in, the same computation traps; in neither case is
`InvalidInput` returned), while the exact value would be positive. -/
theorem payout_overflow_wraps_not_rejected :
    (calculateEqualPayoutI128 stateC9 extC9 .Small [depC9]).map
      (fun p => p.totalOutputAmount) = .ok (-17065312577247407671442290097) ∧
    ((-17065312577247407671442290097 : Int) < 0) ∧
    calculateEqualPayoutI128 stateC9 extC9 .Small [depC9] ≠ .error .InvalidInput ∧
    (calculateEqualPayout stateC9 extC9 .Small [depC9]).map
      (fun p => p.totalOutputAmount) = .ok 1329227862462161363158434627137453188 := by
  refine ⟨by decide, by decide, by decide, by decide⟩

/-- C7: once the input transfer and pool insertion succeed, a failing
opportunistic settlement never rolls back the deposit: `private_swap` still
returns the ledger timestamp, the trace holds only the custody transfer, and
the state keeps the newly appended deposit in the pool. -/
theorem private_swap_deposit_durable
    (s : ContractState) (ext : PairExt) (tokenIn tokenOut : Address)
    (amountIn minAmountOut : Int) (maxSlippageBps : Nat)
    (userAddress receivingAddress : Address) (timestamp : Nat)
    (denomination : Denomination) (pool : CoinJoinPool) (e : BatcherError)
    (hinit : s.initialized = true)
    (hden : Denomination.fromAmount amountIn = some denomination)
    (hen : s.coinjoinEnabled = true)
    (hpool : s.pools denomination = some pool)
    (hfail : tryExecuteBatchSwap
      (updatePool s denomination { pool with deposits := pool.deposits ++
        [depositRecord pool denomination timestamp
          (createCommitment timestamp receivingAddress)
          (createNullifier userAddress amountIn timestamp)
          userAddress receivingAddress maxSlippageBps tokenIn tokenOut minAmountOut] })
      ext denomination tokenIn tokenOut minAmountOut receivingAddress = .error e) :
    privateSwap s ext tokenIn tokenOut amountIn minAmountOut maxSlippageBps
      userAddress receivingAddress timestamp =
      .ok (timestamp,
        updatePool s denomination { pool with deposits := pool.deposits ++
          [depositRecord pool denomination timestamp
            (createCommitment timestamp receivingAddress)
            (createNullifier userAddress amountIn timestamp)
            userAddress receivingAddress maxSlippageBps tokenIn tokenOut minAmountOut] },
        [ExtCall.transfer
          { token := tokenIn, source := userAddress, dest := batchContractAddress,
            amount := amountIn }]) ∧
    depositRecord pool denomination timestamp
        (createCommitment timestamp receivingAddress)
        (createNullifier userAddress amountIn timestamp)
        userAddress receivingAddress maxSlippageBps tokenIn tokenOut minAmountOut ∈
      pool.deposits ++
        [depositRecord pool denomination timestamp
          (createCommitment timestamp receivingAddress)
          (createNullifier userAddress amountIn timestamp)
          userAddress receivingAddress maxSlippageBps tokenIn tokenOut minAmountOut] := by
  constructor
  · rw [privateSwap, if_neg (by simp [hinit])]
    simp only [hden]
    rw [deposit_eq_ok s timestamp denomination pool _ _ userAddress receivingAddress
      maxSlippageBps tokenIn tokenOut minAmountOut hen hpool]
    simp only [updatePool_pools_self]
    split
    · rw [hfail]
    · rfl
  · exact List.mem_append_right _ (List.mem_singleton_self _)

/-- Small pool with two deposits, one short of a settleable size of three. -/
def poolC7 : CoinJoinPool :=
  { denomination := .Small,
    deposits := [mkDep 11 21 [1] 9000000 50, mkDep 12 22 [2] 9000000 50],
    withdrawals := [], merkleRoot := [0],
    minimumPoolSize := 3, maximumPoolSize := 10, feeBasisPoints := 10 }

/-- State holding `poolC7`. -/
def stateC7 : ContractState :=
  { initialized := true, coinjoinEnabled := true, factoryAddr := some 100,
    pools := fun d => if d = .Small then some poolC7 else none,
    nullifierUsed := [] }

/-- Pair with empty reserves: every aggregated swap outputs zero, so the
selector never finds a qualifying set and the settlement attempt fails. -/
def extC7 : PairExt := { pairAddr := 200, token0 := 1, reserve0 := 0, reserve1 := 0 }

/-- Witness for C7: the third deposit triggers a settlement attempt that
fails with `InsufficientBalance` against empty reserves, yet the call
returns the timestamp and the deposit is appended. -/
theorem private_swap_deposit_durable_witness :
    privateSwap stateC7 extC7 1 2 10000000 9000000 10000 13 23 1000 =
      .ok (1000,
        updatePool stateC7 .Small { poolC7 with deposits := poolC7.deposits ++
          [depositRecord poolC7 .Small 1000 (createCommitment 1000 23)
            (createNullifier 13 10000000 1000) 13 23 10000 1 2 9000000] },
        [ExtCall.transfer
          { token := 1, source := 13, dest := batchContractAddress,
            amount := 10000000 }]) ∧
    depositRecord poolC7 .Small 1000 (createCommitment 1000 23)
        (createNullifier 13 10000000 1000) 13 23 10000 1 2 9000000 ∈
      poolC7.deposits ++
        [depositRecord poolC7 .Small 1000 (createCommitment 1000 23)
          (createNullifier 13 10000000 1000) 13 23 10000 1 2 9000000] :=
  private_swap_deposit_durable stateC7 extC7 1 2 10000000 9000000 10000 13 23 1000
    .Small poolC7 .InsufficientBalance (by decide) (by decide) (by decide) (by decide)
    (by decide)

/-- C8: after every successful settlement the pool's deposits equal the
pre-state sequence with exactly those deposits removed whose nullifier
matches some settled deposit's nullifier, and the retained deposits keep
their original relative order. -/
theorem settlement_prunes_by_nullifier
    (s : ContractState) (ext : PairExt) (denomination : Denomination)
    (tokenIn tokenOut : Address) (minAmountOut : Int) (toAddr : Address)
    (pool : CoinJoinPool) (s1 : ContractState) (calls : List ExtCall)
    (hpool : s.pools denomination = some pool)
    (hok : tryExecuteBatchSwap s ext denomination tokenIn tokenOut minAmountOut
      toAddr = .ok (s1, calls)) :
    ∃ S, findOptimalParticipantSet s ext denomination pool.deposits = .ok S ∧
      ∃ pool1, s1.pools denomination = some pool1 ∧
        pool1.deposits = pool.deposits.filter
          (fun d => ¬ S.any (fun q => q.nullifier = d.nullifier)) ∧
        pool1.deposits.Sublist pool.deposits ∧
        (∀ d, d ∈ pool1.deposits ↔
          (d ∈ pool.deposits ∧ ∀ q ∈ S, q.nullifier ≠ d.nullifier)) := by
  simp only [tryExecuteBatchSwap, hpool] at hok
  rcases hfind : findOptimalParticipantSet s ext denomination pool.deposits with e1 | S
  · simp only [hfind] at hok
    exact Except.noConfusion hok
  · simp only [hfind] at hok
    rcases hcalc2 : calculateEqualPayout s ext denomination S with e2 | p
    · simp only [hcalc2] at hok
      exact Except.noConfusion hok
    · simp only [hcalc2] at hok
      rcases hfac : s.factoryAddr with _ | f
      · simp only [hfac] at hok
        exact Except.noConfusion hok
      · simp only [hfac, Except.ok.injEq, Prod.mk.injEq] at hok
        obtain ⟨hs, hc⟩ := hok
        refine ⟨S, rfl, { pool with deposits := pool.deposits.filter (fun d => ¬ S.any (fun q => q.nullifier = d.nullifier)) }, ?_, rfl, List.filter_sublist _, ?_⟩
        · rw [← hs]
          exact updatePool_pools_self _ _ _
        · intro d
          rw [List.mem_filter]
          simp [List.any_eq_true]

/-- Three equal-floor deposits with distinct nullifiers over one pair (the
happy-path settlement scenario). -/
def depsC3 : List Deposit :=
  [mkDep 11 21 [1] 9000000 50, mkDep 12 22 [2] 9000000 50, mkDep 13 23 [3] 9000000 50]

/-- Small pool holding `depsC3`. -/
def poolC3 : CoinJoinPool :=
  { denomination := .Small, deposits := depsC3, withdrawals := [], merkleRoot := [0],
    minimumPoolSize := 3, maximumPoolSize := 10, feeBasisPoints := 10 }

/-- State holding `poolC3`. -/
def stateC3 : ContractState :=
  { initialized := true, coinjoinEnabled := true, factoryAddr := some 100,
    pools := fun d => if d = .Small then some poolC3 else none,
    nullifierUsed := [] }

/-- State after the happy-path settlement: the Small pool is empty. -/
def s1C8 : ContractState := updatePool stateC3 .Small { poolC3 with deposits := [] }

/-- Call trace of the happy-path settlement: pair lookup, token ordering,
custody transfer of the aggregated input, reserve read, one-sided swap, and
one equal payout of 9680457 per recipient. -/
def callsC8 : List ExtCall :=
  [.getPair 1 2, .token0,
   .transfer { token := 1, source := 0, dest := 200, amount := 30000000 },
   .getReserves, .swap 0 29041372 0,
   .transfer { token := 2, source := 0, dest := 21, amount := 9680457 },
   .transfer { token := 2, source := 0, dest := 22, amount := 9680457 },
   .transfer { token := 2, source := 0, dest := 23, amount := 9680457 }]

/-- Witness for C8: the happy-path settlement empties the pool, which equals
the filtered pre-state. -/
theorem settlement_prunes_by_nullifier_witness :
    ∃ S, findOptimalParticipantSet stateC3 extC2 .Small poolC3.deposits = .ok S ∧
      ∃ pool1, s1C8.pools .Small = some pool1 ∧
        pool1.deposits = poolC3.deposits.filter
          (fun d => ¬ S.any (fun q => q.nullifier = d.nullifier)) ∧
        pool1.deposits.Sublist poolC3.deposits ∧
        (∀ d, d ∈ pool1.deposits ↔
          (d ∈ poolC3.deposits ∧ ∀ q ∈ S, q.nullifier ≠ d.nullifier)) :=
  settlement_prunes_by_nullifier stateC3 extC2 .Small 1 2 9000000 5 poolC3 s1C8
    callsC8 (by decide) (by decide)

/-- C3 counterexample: at denomination 10^7, reserves (10^9, 10^9) and three
participants, the settlement credits each recipient 9680457 of token_out, not
the 9674754 the specification computes: the exact aggregated output is
29041372, and 29041372 tdiv 3 = 9680457. -/
theorem settlement_share_value_counterexample :
    (tryExecuteBatchSwap stateC3 extC2 .Small 1 2 9000000 5).map (fun r => r.2) =
      .ok callsC8 ∧
    (payoutOf .Small 1000000000 1000000000 depsC3).totalOutputAmount = 29041372 ∧
    (payoutOf .Small 1000000000 1000000000 depsC3).equalPayoutAmount = 9680457 ∧
    ((9680457 : Int) = 9674754 → False) := by
  refine ⟨by decide, by decide, by decide, by decide⟩

/-- C3 (amended): the total output of a settled set S equals
`tdiv (|S| * D * 997 * Ro) (Ri * 1000 + |S| * D * 997)` with truncating
division, the equal share is `tdiv total |S|`, every settlement transfer to a
recipient carries exactly that share (all payouts identical), and at
D = 10^7, reserves (10^9, 10^9), |S| = 3 the share is 9680457. -/
theorem equal_payout_formula_and_distribution :
    (∀ (denomination : Denomination) (rIn rOut : Int) (deps : List Deposit),
      (payoutOf denomination rIn rOut deps).totalOutputAmount =
        Int.tdiv ((deps.length : Int) * denomination.value * 997 * rOut)
          (rIn * 1000 + (deps.length : Int) * denomination.value * 997) ∧
      (payoutOf denomination rIn rOut deps).equalPayoutAmount =
        Int.tdiv (payoutOf denomination rIn rOut deps).totalOutputAmount
          (deps.length : Int)) ∧
    (∀ (s : ContractState) (ext : PairExt) (denomination : Denomination)
      (tokenIn tokenOut : Address) (minAmountOut : Int) (toAddr : Address)
      (pool : CoinJoinPool) (s1 : ContractState) (calls : List ExtCall),
      s.pools denomination = some pool →
      tryExecuteBatchSwap s ext denomination tokenIn tokenOut minAmountOut toAddr =
        .ok (s1, calls) →
      ∃ S p, findOptimalParticipantSet s ext denomination pool.deposits = .ok S ∧
        calculateEqualPayout s ext denomination S = .ok p ∧
        ∃ pre, calls = pre ++ S.map (fun d => ExtCall.transfer
          { token := tokenOut, source := batchContractAddress,
            dest := d.recipientAddress, amount := p.equalPayoutAmount })) ∧
    ((payoutOf .Small 1000000000 1000000000 depsC3).equalPayoutAmount = 9680457) := by
  refine ⟨?_, ?_, by decide⟩
  · intro denomination rIn rOut deps
    constructor
    · simp only [payoutOf]
      congr 1 <;> ring
    · rfl
  · intro s ext denomination tokenIn tokenOut minAmountOut toAddr pool s1 calls
      hpool hok
    simp only [tryExecuteBatchSwap, hpool] at hok
    rcases hfind : findOptimalParticipantSet s ext denomination pool.deposits with e1 | S
    · simp only [hfind] at hok
      exact Except.noConfusion hok
    · simp only [hfind] at hok
      rcases hcalc2 : calculateEqualPayout s ext denomination S with e2 | p
      · simp only [hcalc2] at hok
        exact Except.noConfusion hok
      · simp only [hcalc2] at hok
        rcases hfac : s.factoryAddr with _ | f
        · simp only [hfac] at hok
          exact Except.noConfusion hok
        · simp only [hfac, Except.ok.injEq, Prod.mk.injEq] at hok
          obtain ⟨hs, hc⟩ := hok
          exact ⟨S, p, rfl, hcalc2, _, hc.symm⟩

/-- Witness for C3: the happy-path settlement trace ends with the three equal
payout transfers produced by the selected set. -/
theorem equal_payout_formula_and_distribution_witness :
    ∃ S p, findOptimalParticipantSet stateC3 extC2 .Small poolC3.deposits = .ok S ∧
      calculateEqualPayout stateC3 extC2 .Small S = .ok p ∧
      ∃ pre, callsC8 = pre ++ S.map (fun d => ExtCall.transfer
        { token := 2, source := batchContractAddress,
          dest := d.recipientAddress, amount := p.equalPayoutAmount }) :=
  equal_payout_formula_and_distribution.2.1 stateC3 extC2 .Small 1 2 9000000 5
    poolC3 s1C8 callsC8 (by decide) (by decide)

/-- Small pool with two deposits from the same sender address 7. -/
def poolC5 : CoinJoinPool :=
  { denomination := .Small,
    deposits := [mkDep 7 21 [1] 9000000 50, mkDep 7 22 [2] 9000000 50],
    withdrawals := [], merkleRoot := [0],
    minimumPoolSize := 3, maximumPoolSize := 10, feeBasisPoints := 10 }

/-- State holding `poolC5`. -/
def stateC5 : ContractState :=
  { initialized := true, coinjoinEnabled := true, factoryAddr := some 100,
    pools := fun d => if d = .Small then some poolC5 else none,
    nullifierUsed := [] }

/-- The third same-sender deposit as `private_swap` constructs it. -/
def depC5new : Deposit :=
  depositRecord poolC5 .Small 1000 (createCommitment 1000 23)
    (createNullifier 7 10000000 1000) 7 23 50 1 2 9000000

/-- The Small pool after the third same-sender deposit is appended. -/
def poolC5after : CoinJoinPool :=
  { poolC5 with deposits := poolC5.deposits ++ [depC5new] }

/-- State after the opportunistic settlement that the same-sender deposit
triggers: the Small pool has been emptied. -/
def s2C5 : ContractState :=
  updatePool (updatePool stateC5 .Small poolC5after) .Small
    { poolC5after with deposits := [] }

/-- Trace of the same-sender run: custody transfer, then a full settlement
with pair calls, swap and three payouts. -/
def callsC5 : List ExtCall :=
  [.transfer { token := 1, source := 7, dest := batchContractAddress, amount := 10000000 },
   .getPair 1 2, .token0,
   .transfer { token := 1, source := 0, dest := 200, amount := 30000000 },
   .getReserves, .swap 0 29041372 0,
   .transfer { token := 2, source := 0, dest := 21, amount := 9680457 },
   .transfer { token := 2, source := 0, dest := 22, amount := 9680457 },
   .transfer { token := 2, source := 0, dest := 23, amount := 9680457 }]

set_option maxRecDepth 8000 in
/-- C5 counterexample: with three deposits all from sender 7 (one distinct
sender, below the minimum pool size of three) the opportunistic path inside
`private_swap` still performs the external pair and token calls and settles
the whole pool: the unique-sender gate exists only in `execute_mixing`. -/
theorem settlement_without_unique_senders_counterexample :
    (uniqueSenders poolC5after.deposits).length = 1 ∧
    (uniqueSenders poolC5after.deposits).length < poolC5after.minimumPoolSize ∧
    privateSwap stateC5 extC2 1 2 10000000 9000000 50 7 23 1000 =
      .ok (1000, s2C5, callsC5) ∧
    (s2C5.pools .Small).map (fun p => p.deposits.length) = some 0 ∧
    ExtCall.swap 0 29041372 0 ∈ callsC5 := by
  refine ⟨by decide, by decide, by decide, by decide, by decide⟩

/-- C5 (amended): the unique-sender gate exists only on the explicit mixing
path: `execute_mixing` settles nothing and leaves the state unchanged while
the distinct-sender count is below `minimum_pool_size`, whereas
`private_swap` gates its opportunistic settlement attempt on the total
deposit count alone (below that count it only appends the deposit and makes
no settlement call, whatever the senders). -/
theorem unique_sender_gate_only_in_execute_mixing :
    (∀ (s : ContractState) (denomination : Denomination) (cap : Option Nat)
      (pool : CoinJoinPool),
      s.coinjoinEnabled = true →
      s.pools denomination = some pool →
      (uniqueSenders pool.deposits).length < pool.minimumPoolSize →
      executeMixing s denomination cap =
        .ok ({ success := false, mixedAmounts := [], gasUsed := 0,
               anonymitySetSize := 0, feesPaid := 0 }, s)) ∧
    (∀ (s : ContractState) (ext : PairExt) (tokenIn tokenOut : Address)
      (amountIn minAmountOut : Int) (maxSlippageBps : Nat)
      (userAddress receivingAddress : Address) (timestamp : Nat)
      (denomination : Denomination) (pool : CoinJoinPool),
      s.initialized = true →
      Denomination.fromAmount amountIn = some denomination →
      s.coinjoinEnabled = true →
      s.pools denomination = some pool →
      pool.deposits.length + 1 < pool.minimumPoolSize →
      privateSwap s ext tokenIn tokenOut amountIn minAmountOut maxSlippageBps
        userAddress receivingAddress timestamp =
        .ok (timestamp,
          updatePool s denomination { pool with deposits := pool.deposits ++
            [depositRecord pool denomination timestamp
              (createCommitment timestamp receivingAddress)
              (createNullifier userAddress amountIn timestamp)
              userAddress receivingAddress maxSlippageBps tokenIn tokenOut
              minAmountOut] },
          [ExtCall.transfer
            { token := tokenIn, source := userAddress,
              dest := batchContractAddress, amount := amountIn }])) := by
  constructor
  · intro s denomination cap pool hen hpool hlt
    simp only [executeMixing, isCoinjoinEnabled, hen, hpool, not_true_eq_false,
      if_false, Bool.true_eq_false]
    rw [if_pos hlt]
  · intro s ext tokenIn tokenOut amountIn minAmountOut maxSlippageBps
      userAddress receivingAddress timestamp denomination pool hinit hden hen
      hpool hlt
    rw [privateSwap, if_neg (by simp [hinit])]
    simp only [hden]
    rw [deposit_eq_ok s timestamp denomination pool _ _ userAddress
      receivingAddress maxSlippageBps tokenIn tokenOut minAmountOut hen hpool]
    simp only [updatePool_pools_self]
    rw [if_neg (by simp [Nat.not_le]; omega)]

/-- Witness for C5: on `stateC5` (one distinct sender) explicit mixing
settles nothing, and on `stateC1` (one deposit, below the count gate) a
deposit triggers no settlement attempt. -/
theorem unique_sender_gate_only_in_execute_mixing_witness :
    executeMixing stateC5 .Small none =
      .ok ({ success := false, mixedAmounts := [], gasUsed := 0,
             anonymitySetSize := 0, feesPaid := 0 }, stateC5) ∧
    privateSwap stateC1 extC2 1 2 10000000 9000000 50 12 22 1000 =
      .ok (1000,
        updatePool stateC1 .Small { poolC1 with deposits := poolC1.deposits ++
          [depositRecord poolC1 .Small 1000 (createCommitment 1000 22)
            (createNullifier 12 10000000 1000) 12 22 50 1 2 9000000] },
        [ExtCall.transfer
          { token := 1, source := 12, dest := batchContractAddress,
            amount := 10000000 }]) :=
  ⟨unique_sender_gate_only_in_execute_mixing.1 stateC5 .Small none poolC5
    (by decide) (by decide) (by decide),
   unique_sender_gate_only_in_execute_mixing.2 stateC1 extC2 1 2 10000000
    9000000 50 12 22 1000 .Small poolC1 (by decide) (by decide) (by decide)
    (by decide) (by decide)⟩

/-- Five deposits from five distinct senders whose minimum outputs (10^18)
no aggregated swap against the test reserves can meet. -/
def depsC6 : List Deposit :=
  [mkDep 11 21 [1] 1000000000000000000 50, mkDep 12 22 [2] 1000000000000000000 50,
   mkDep 13 23 [3] 1000000000000000000 50, mkDep 14 24 [4] 1000000000000000000 50,
   mkDep 15 25 [5] 1000000000000000000 50]

/-- Small pool holding `depsC6`. -/
def poolC6 : CoinJoinPool :=
  { denomination := .Small, deposits := depsC6, withdrawals := [], merkleRoot := [0],
    minimumPoolSize := 3, maximumPoolSize := 10, feeBasisPoints := 10 }

/-- State holding `poolC6`. -/
def stateC6 : ContractState :=
  { initialized := true, coinjoinEnabled := true, factoryAddr := some 100,
    pools := fun d => if d = .Small then some poolC6 else none,
    nullifierUsed := [] }

/-- State after `execute_coinjoin_mixing` with cap 3: the first three
deposits are gone. -/
def prunedStateC6 : ContractState :=
  updatePool stateC6 .Small { poolC6 with deposits := poolC6.deposits.drop 3 }

/-- C6 counterexample: `execute_coinjoin_mixing` removes three deposits and
reports an anonymity set of three even though the participant selector finds
no qualifying set for these deposits (every candidate fails its minimum
output), so no selection, swap or distribution is driven by this path. -/
theorem execute_mixing_without_settlement_counterexample :
    executeCoinjoinMixing stateC6 "10" (some 3) = .ok (3, prunedStateC6) ∧
    findOptimalParticipantSet stateC6 extC2 .Small poolC6.deposits =
      .error .InsufficientBalance ∧
    (prunedStateC6.pools .Small).map (fun p => p.deposits) =
      some (poolC6.deposits.drop 3) := by
  refine ⟨by decide, by decide, by decide⟩

/-- C6 (amended): `execute_coinjoin_mixing` resolves the symbol and runs
`execute_mixing`: it returns 0 and leaves the state unchanged when the
distinct-sender count is below `minimum_pool_size`, and otherwise removes
exactly the first `min(deposit count, cap)` deposits in insertion order and
returns that count; no participant selection, AMM swap or payout
distribution is performed on this path. -/
theorem execute_coinjoin_mixing_drops_first_deposits
    (s : ContractState) (denominationSymbol : String) (maxDeposits : Option Nat)
    (denomination : Denomination) (pool : CoinJoinPool)
    (hinit : s.initialized = true)
    (hsym : symbolToDenomination denominationSymbol = .ok denomination)
    (hen : s.coinjoinEnabled = true)
    (hpool : s.pools denomination = some pool) :
    ((uniqueSenders pool.deposits).length < pool.minimumPoolSize →
      executeCoinjoinMixing s denominationSymbol maxDeposits = .ok (0, s)) ∧
    (pool.minimumPoolSize ≤ (uniqueSenders pool.deposits).length →
      executeCoinjoinMixing s denominationSymbol maxDeposits =
        .ok (min pool.deposits.length (maxDeposits.getD pool.maximumPoolSize),
          updatePool s denomination { pool with deposits := pool.deposits.drop (min pool.deposits.length (maxDeposits.getD pool.maximumPoolSize)) })) := by
  constructor
  · intro hlt
    rw [executeCoinjoinMixing, if_neg (by simp [hinit])]
    simp only [hsym, executeMixing, isCoinjoinEnabled, hen, hpool,
      not_true_eq_false, if_false, Bool.true_eq_false]
    rw [if_pos hlt]
  · intro hge
    rw [executeCoinjoinMixing, if_neg (by simp [hinit])]
    simp only [hsym, executeMixing, isCoinjoinEnabled, hen, hpool,
      not_true_eq_false, if_false, Bool.true_eq_false]
    rw [if_neg (Nat.not_lt.mpr hge)]

/-- Witness for C6: the not-Ready pool returns 0 unchanged; the five-deposit
pool with cap 3 loses exactly its first three deposits and reports 3. -/
theorem execute_coinjoin_mixing_drops_first_deposits_witness :
    executeCoinjoinMixing stateC5 "10" none = .ok (0, stateC5) ∧
    executeCoinjoinMixing stateC6 "10" (some 3) =
      .ok (min poolC6.deposits.length ((some 3).getD poolC6.maximumPoolSize),
        updatePool stateC6 .Small { poolC6 with deposits := poolC6.deposits.drop (min poolC6.deposits.length ((some 3).getD poolC6.maximumPoolSize)) }) :=
  ⟨(execute_coinjoin_mixing_drops_first_deposits stateC5 "10" none .Small poolC5
      (by decide) (by decide) (by decide) (by decide)).1 (by decide),
   (execute_coinjoin_mixing_drops_first_deposits stateC6 "10" (some 3) .Small poolC6
      (by decide) (by decide) (by decide) (by decide)).2 (by decide)⟩

end Dex
